import Mathlib

/-!
Verification of the CTABusTrust data-collector scripts.

The repository holds two Python scripts that poll the CTA bus-tracker API,
append vehicle rows to a local CSV file and upload the file to an object
store:

* `bustrust_data_collector_chunks.py` — single local file, upload at each
  chunk boundary, delete the local file after a successful upload;
* `bustrust_data_collector_nochunks.py` — one timestamped file for the whole
  run, one upload at the very end.

This file gives a shallow embedding of the pure parts of both scripts
(list batching, route parsing, CSV appending, the S3 key computation, and
the chunk-rollover/upload state machine driven by an explicit environment
of clock readings, fetch results and upload outcomes) and proves the
spec's testable properties about them.
-/

namespace BusTrust

/-! Section: the `chunk_list` helper.

Python source (both scripts):
`def chunk_list(xs, n=10): return [xs[i:i+n] for i in range(0, len(xs), n)]`

`pyRangeGo stop step h i` embeds Python's `range(i, stop, step)` for a
positive step; `chunk_list` then maps the slice `xs[i:i+n]`
(= `(xs.drop i).take n`) over `range(0, len(xs), n)`. -/

def pyRangeGo (stop step : Nat) (h : 0 < step) (i : Nat) : List Nat :=
  if _hi : i < stop then i :: pyRangeGo stop step h (i + step) else []
termination_by stop - i
decreasing_by
  have : 0 < step := h
  omega

/-- Python `range(0, stop, step)`; `range` with step `0` raises in Python,
so the claims only use positive steps and we return `[]` there. -/
def pyRange (stop step : Nat) : List Nat :=
  if h : 0 < step then pyRangeGo stop step h 0 else []

def chunk_list (xs : List α) (n : Nat) : List (List α) :=
  (pyRange xs.length n).map (fun i => (xs.drop i).take n)

/-- Recursive characterisation of the grouping, used to reason by induction. -/
def chunksRec (xs : List α) (n : Nat) : List (List α) :=
  if h : xs.isEmpty || n == 0 then []
  else
    have hlt : xs.length - n < xs.length := by
      simp only [List.isEmpty_iff, Bool.or_eq_true, beq_iff_eq, not_or] at h
      cases xs with
      | nil => simp_all
      | cons a t => simp_all; omega
    xs.take n :: chunksRec (xs.drop n) n
termination_by xs.length
decreasing_by simpa using hlt

theorem chunksRec_nil (n : Nat) : chunksRec ([] : List α) n = [] := by
  rw [chunksRec]; simp

theorem chunksRec_cons (xs : List α) (n : Nat) (h : xs ≠ []) (hn : 0 < n) :
    chunksRec xs n = xs.take n :: chunksRec (xs.drop n) n := by
  rw [chunksRec]
  simp [List.isEmpty_iff, h, Nat.pos_iff_ne_zero.mp hn]

theorem pyRangeGo_stop (stop step : Nat) (h : 0 < step) (i : Nat) (hi : ¬ i < stop) :
    pyRangeGo stop step h i = [] := by
  rw [pyRangeGo]; simp [hi]

theorem pyRangeGo_step (stop step : Nat) (h : 0 < step) (i : Nat) (hi : i < stop) :
    pyRangeGo stop step h i = i :: pyRangeGo stop step h (i + step) := by
  rw [pyRangeGo]; simp [hi]

theorem pyRangeGo_shift (step : Nat) (h : 0 < step) :
    ∀ d stop i, stop - i ≤ d →
      pyRangeGo stop step h (i + step) =
        (pyRangeGo (stop - step) step h i).map (fun j => j + step) := by
  intro d
  induction d with
  | zero =>
    intro stop i hd
    rw [pyRangeGo_stop stop step h _ (by omega),
        pyRangeGo_stop (stop - step) step h i (by omega)]
    simp
  | succ d ih =>
    intro stop i hd
    by_cases hi : i + step < stop
    · rw [pyRangeGo_step stop step h _ hi,
          pyRangeGo_step (stop - step) step h i (by omega)]
      simp only [List.map_cons]
      rw [ih stop (i + step) (by omega)]
    · rw [pyRangeGo_stop stop step h _ hi,
          pyRangeGo_stop (stop - step) step h i (by omega)]
      simp

theorem chunk_list_nil (n : Nat) : chunk_list ([] : List α) n = [] := by
  unfold chunk_list pyRange
  by_cases h : 0 < n
  · simp only [h, dif_pos]
    rw [pyRangeGo_stop _ _ _ _ (by simp)]
    simp
  · simp [h]

theorem chunk_list_cons (xs : List α) (n : Nat) (h : xs ≠ []) (hn : 0 < n) :
    chunk_list xs n = xs.take n :: chunk_list (xs.drop n) n := by
  have hL : 0 < xs.length := List.length_pos.mpr h
  unfold chunk_list pyRange
  simp only [hn, dif_pos]
  rw [pyRangeGo_step _ _ _ _ hL]
  have hshift := pyRangeGo_shift n hn xs.length xs.length 0 (by omega)
  simp only [Nat.zero_add] at hshift
  simp only [Nat.zero_add]
  rw [hshift]
  simp only [List.map_cons, List.map_map, List.length_drop]
  congr 1
  simp only [List.map_inj_left, Function.comp_apply, List.drop_drop]
  intro a _
  rw [Nat.add_comm]

/-- The mapping `chunk_list xs n` coincides with the structural grouping for positive `n`. -/
theorem chunk_list_eq_chunksRec (n : Nat) (hn : 0 < n) (xs : List α) :
    chunk_list xs n = chunksRec xs n := by
  suffices H : ∀ d (xs : List α), xs.length ≤ d → chunk_list xs n = chunksRec xs n from
    H xs.length xs le_rfl
  intro d
  induction d with
  | zero =>
    intro xs hd
    have : xs = [] := List.length_eq_zero.mp (Nat.le_zero.mp hd)
    subst this
    rw [chunk_list_nil, chunksRec_nil]
  | succ d ih =>
    intro xs hd
    by_cases h : xs = []
    · subst h; rw [chunk_list_nil, chunksRec_nil]
    · rw [chunk_list_cons xs n h hn, chunksRec_cons xs n h hn,
          ih (xs.drop n) (by simp; omega)]

theorem chunksRec_flatten (n : Nat) (hn : 0 < n) (xs : List α) :
    (chunksRec xs n).flatten = xs := by
  suffices H : ∀ d (xs : List α), xs.length ≤ d → (chunksRec xs n).flatten = xs from
    H xs.length xs le_rfl
  intro d
  induction d with
  | zero =>
    intro xs hd
    have hx : xs = [] := List.length_eq_zero.mp (Nat.le_zero.mp hd)
    subst hx; rw [chunksRec_nil]; rfl
  | succ d ih =>
    intro xs hd
    by_cases h : xs = []
    · subst h; rw [chunksRec_nil]; rfl
    · rw [chunksRec_cons xs n h hn, List.flatten_cons,
          ih (xs.drop n) (by simp; omega), List.take_append_drop]

theorem chunksRec_length (n : Nat) (hn : 0 < n) (xs : List α) :
    (chunksRec xs n).length = (xs.length + n - 1) / n := by
  suffices H : ∀ d (xs : List α), xs.length ≤ d →
      (chunksRec xs n).length = (xs.length + n - 1) / n from H xs.length xs le_rfl
  intro d
  induction d with
  | zero =>
    intro xs hd
    have hx : xs = [] := List.length_eq_zero.mp (Nat.le_zero.mp hd)
    subst hx; rw [chunksRec_nil]
    simp [Nat.div_eq_of_lt (show n - 1 < n by omega)]
  | succ d ih =>
    intro xs hd
    by_cases h : xs = []
    · subst h; rw [chunksRec_nil]
      simp [Nat.div_eq_of_lt (show n - 1 < n by omega)]
    · rw [chunksRec_cons xs n h hn]
      have hL : 0 < xs.length := List.length_pos.mpr h
      simp only [List.length_cons]
      rw [ih (xs.drop n) (by simp; omega)]
      simp only [List.length_drop]
      have hr : xs.length + n - 1 = (xs.length - 1) + n := by omega
      rw [hr, Nat.add_div_right _ hn]
      by_cases hcase : n ≤ xs.length
      · have h2 : xs.length - n + n - 1 = xs.length - 1 := by omega
        rw [h2]
      · have h2 : xs.length - n = 0 := by omega
        rw [h2, Nat.div_eq_of_lt (show 0 + n - 1 < n by omega),
            Nat.div_eq_of_lt (show xs.length - 1 < n by omega)]

theorem chunksRec_dropLast (n : Nat) (hn : 0 < n) (xs : List α) :
    ∀ g ∈ (chunksRec xs n).dropLast, g.length = n := by
  suffices H : ∀ d (xs : List α), xs.length ≤ d →
      ∀ g ∈ (chunksRec xs n).dropLast, g.length = n from H xs.length xs le_rfl
  intro d
  induction d with
  | zero =>
    intro xs hd
    have hx : xs = [] := List.length_eq_zero.mp (Nat.le_zero.mp hd)
    subst hx; rw [chunksRec_nil]; simp
  | succ d ih =>
    intro xs hd
    by_cases h : xs = []
    · subst h; rw [chunksRec_nil]; simp
    · rw [chunksRec_cons xs n h hn]
      by_cases hdrop : xs.drop n = []
      · rw [hdrop, chunksRec_nil]; simp
      · have hrest : chunksRec (xs.drop n) n ≠ [] := by
          rw [chunksRec_cons _ n hdrop hn]; simp
        rw [List.dropLast_cons_of_ne_nil hrest]
        intro g hg
        rcases List.mem_cons.mp hg with hg | hg
        · subst hg
          have hlt : n < xs.length := by
            by_contra hc
            push_neg at hc
            simp [List.drop_eq_nil_of_le hc] at hdrop
          simp [List.length_take]
          omega
        · exact ih (xs.drop n) (by simp; omega) g hg

theorem chunksRec_getLast (n : Nat) (hn : 0 < n) (xs : List α)
    (h : xs.length % n ≠ 0) :
    ((chunksRec xs n).getLast?).map List.length = some (xs.length % n) := by
  suffices H : ∀ d (xs : List α), xs.length ≤ d → xs.length % n ≠ 0 →
      ((chunksRec xs n).getLast?).map List.length = some (xs.length % n) from
    H xs.length xs le_rfl h
  intro d
  induction d with
  | zero =>
    intro xs hd hmod
    have hx : xs = [] := List.length_eq_zero.mp (Nat.le_zero.mp hd)
    subst hx; simp at hmod
  | succ d ih =>
    intro xs hd hmod
    have h : xs ≠ [] := by
      intro hx; subst hx; simp at hmod
    rw [chunksRec_cons xs n h hn]
    by_cases hdrop : xs.drop n = []
    · rw [hdrop, chunksRec_nil]
      have hle : xs.length ≤ n := by
        by_contra hc
        push_neg at hc
        have := List.drop_eq_nil_iff.mp hdrop
        omega
      have hlt : xs.length < n := by
        rcases Nat.lt_or_ge xs.length n with h1 | h1
        · exact h1
        · exfalso
          have : xs.length = n := by omega
          rw [this, Nat.mod_self] at hmod
          exact hmod rfl
      simp [List.length_take, Nat.mod_eq_of_lt hlt]
      omega
    · have hrest : chunksRec (xs.drop n) n ≠ [] := by
        rw [chunksRec_cons _ n hdrop hn]; simp
      obtain ⟨b, t, hbt⟩ := List.exists_cons_of_ne_nil hrest
      rw [hbt, List.getLast?_cons_cons, ← hbt]
      have hlt : n < xs.length := by
        by_contra hc
        push_neg at hc
        simp [List.drop_eq_nil_of_le hc] at hdrop
      have hmod' : (xs.drop n).length % n = xs.length % n := by
        simp only [List.length_drop]
        have : xs.length = (xs.length - n) + n := by omega
        conv_rhs => rw [this]
        rw [Nat.add_mod_right]
      rw [ih (xs.drop n) (by simp; omega) (by rw [hmod']; exact hmod), hmod']

/-- Claim C4. For every entity list of length `L`, `chunk_list` with group size
10 returns exactly `⌈L/10⌉` groups (in `Nat` arithmetic `(L + 10 - 1) / 10`,
equivalently the least `k` with `L ≤ 10 * k`, as the two bound conjuncts
state); the in-order concatenation of the groups is the original list; every
group except possibly the last has size 10; the last group has size
`L % 10` when that is non-zero; and a 23-element list yields groups of sizes
`[10, 10, 3]`, hence 3 requests per sweep. -/
theorem C4_chunk_list_partition (xs : List α) :
    (chunk_list xs 10).length = (xs.length + 10 - 1) / 10 ∧
    xs.length ≤ 10 * (chunk_list xs 10).length ∧
    10 * (chunk_list xs 10).length < xs.length + 10 ∧
    (chunk_list xs 10).flatten = xs ∧
    (∀ g ∈ (chunk_list xs 10).dropLast, g.length = 10) ∧
    (xs.length % 10 ≠ 0 →
      ((chunk_list xs 10).getLast?).map List.length = some (xs.length % 10)) ∧
    (chunk_list (List.range 23) 10).map List.length = [10, 10, 3] := by
  have h10 : (0:Nat) < 10 := by norm_num
  have hlen : (chunk_list xs 10).length = (xs.length + 10 - 1) / 10 := by
    rw [chunk_list_eq_chunksRec 10 h10, chunksRec_length 10 h10]
  refine ⟨hlen, ?_, ?_, ?_, ?_, ?_, ?_⟩
  · rw [hlen]; omega
  · rw [hlen]; omega
  · rw [chunk_list_eq_chunksRec 10 h10]; exact chunksRec_flatten 10 h10 xs
  · rw [chunk_list_eq_chunksRec 10 h10]; exact chunksRec_dropLast 10 h10 xs
  · intro h
    rw [chunk_list_eq_chunksRec 10 h10]
    exact chunksRec_getLast 10 h10 xs h
  · simp [chunk_list, pyRange, pyRangeGo]

/-- Witness for C4 at the concrete 23-element entity list of the spec's
example: `23 % 10 = 3 ≠ 0` and the last group indeed has size 3. -/
theorem C4_chunk_list_partition_witness :
    (List.range 23).length % 10 ≠ 0 ∧
    ((chunk_list (List.range 23) 10).getLast?).map List.length =
      some ((List.range 23).length % 10) :=
  ⟨by decide, (C4_chunk_list_partition (List.range 23)).2.2.2.2.2.1 (by decide)⟩

/-! Section: `get_routes`.

Python source (both scripts, after the HTTP layer has produced parsed JSON):
```
routes = data.get("bustime-response", \x7b\x7d).get("routes", [])
if not routes:
    err = data.get("bustime-response", \x7b\x7d).get("error", [])
    raise ValueError(f"No routes returned. Error: ...")
return [rt["rt"] for rt in routes if "rt" in rt]
```
We model the parsed JSON of the route-discovery response: `none` on an
`Option` field stands for "key absent or null", in which case the `.get`
default applies. -/

/-- One entry of the `routes` array; `rt` is its `"rt"` field when present. -/
structure RouteEntry where
  rt : Option String
deriving DecidableEq

/-- The `"bustime-response"` object of the `getroutes` reply. -/
structure RoutesResponse where
  routes : Option (List RouteEntry)
  error : Option (List String)
deriving DecidableEq

/-- The parsed top-level `getroutes` reply. -/
structure RoutesData where
  response : Option RoutesResponse
deriving DecidableEq

/-- Embeds `data.get("bustime-response", \x7b\x7d).get("routes", [])`. -/
def routesOf (d : RoutesData) : List RouteEntry :=
  match d.response with
  | none => []
  | some r => r.routes.getD []

/-- Embeds `data.get("bustime-response", \x7b\x7d).get("error", [])`. -/
def errorOf (d : RoutesData) : List String :=
  match d.response with
  | none => []
  | some r => r.error.getD []

/-- Embeds `get_routes` after the HTTP fetch: `Except.error` models the raised
`ValueError`. Python's `if not routes` is true exactly on the empty list. -/
def get_routes (d : RoutesData) : Except String (List String) :=
  let routes := routesOf d
  if routes.isEmpty then
    Except.error ("No routes returned. Error: " ++ String.intercalate ", " (errorOf d))
  else
    Except.ok (routes.filterMap (fun rt => rt.rt))

/-! Section: `append_vehicles_to_csv`.

Python source (both scripts):
```
vehicles = data.get("bustime-response", \x7b\x7d).get("vehicle", None)
if not vehicles:
    return 0
df = pd.DataFrame(vehicles)
df["pulled_at"] = pulled_at
df["rt_chunk"] = rt_chunk
file_exists = os.path.exists(outfile)
df.to_csv(outfile, mode="a", header=not file_exists, index=False)
return len(df)
```
A vehicle is its JSON object, a list of field/value pairs; the local file is
`Option (List (List String))`: `none` = the file does not exist, `some ls` =
it exists and holds the CSV lines `ls` (each line a list of cells). -/

/-- A vehicle record: the fields of one JSON object, in order. -/
abbrev Vehicle := List (String × String)

/-- The `"bustime-response"` object of the `getvehicles` reply. -/
structure VehicleResponse where
  vehicle : Option (List Vehicle)
deriving DecidableEq

/-- The parsed top-level `getvehicles` reply. -/
structure VehiclesData where
  response : Option VehicleResponse
deriving DecidableEq

/-- Embeds `data.get("bustime-response", \x7b\x7d).get("vehicle", None)`. -/
def vehiclesOf (d : VehiclesData) : Option (List Vehicle) :=
  match d.response with
  | none => none
  | some r => r.vehicle

/-- Python's `if not vehicles` on an optional list: true for `None` and `[]`. -/
def pyFalsy (v : Option (List α)) : Bool :=
  match v with
  | none => true
  | some l => l.isEmpty

/-- A pandas `DataFrame`: column names plus rows of cells. -/
structure DataFrame where
  columns : List String
  rows : List (List String)
deriving DecidableEq

/-- Column order of `pd.DataFrame(list_of_dicts)`: the union of the keys in
first-seen order. -/
def firstSeenKeys (vs : List Vehicle) : List String :=
  vs.foldl (fun acc v => v.foldl (fun a kv => if kv.1 ∈ a then a else a ++ [kv.1]) acc) []

/-- Embeds `pd.DataFrame(vehicles)`: one row per vehicle, cells aligned to the
column union; a missing field is NaN, which `to_csv` renders as the empty
cell. -/
def pdDataFrame (vs : List Vehicle) : DataFrame :=
  let cols := firstSeenKeys vs
  { columns := cols
    rows := vs.map (fun v => cols.map (fun c => (v.lookup c).getD "")) }

/-- Embeds `df[name] = value` with a scalar: broadcast into an existing column, or
append a new constant column. -/
def dfSetCol (df : DataFrame) (name value : String) : DataFrame :=
  if name ∈ df.columns then
    { columns := df.columns
      rows := df.rows.map (fun r =>
        (df.columns.zip r).map (fun cv => if cv.1 = name then value else cv.2)) }
  else
    { columns := df.columns ++ [name]
      rows := df.rows.map (fun r => r ++ [value]) }

/-- Embeds `df.to_csv(outfile, mode="a", header=not file_exists, index=False)`:
the header line is written exactly when the file did not exist. -/
def to_csv_append (file : Option (List (List String))) (df : DataFrame) :
    List (List String) :=
  match file with
  | none => df.columns :: df.rows
  | some ls => ls ++ df.rows

/-- Embeds `append_vehicles_to_csv`, returning the new file contents and the row
count the Python function returns. -/
def append_vehicles_to_csv (data : VehiclesData) (file : Option (List (List String)))
    (pulled_at rt_chunk : String) : Option (List (List String)) × Nat :=
  let vehicles := vehiclesOf data
  if pyFalsy vehicles then (file, 0)
  else
    let df := pdDataFrame (vehicles.getD [])
    let df1 := dfSetCol df "pulled_at" pulled_at
    let df2 := dfSetCol df1 "rt_chunk" rt_chunk
    (some (to_csv_append file df2), df2.rows.length)

/-- A concrete `getroutes` reply that carries both an API error and a
non-empty route list. -/
def routesDataErrorAndRoutes : RoutesData :=
  { response := some { routes := some [{ rt := some "1" }]
                       error := some ["Transaction limit exceeded"] } }

/-- Claim C7, counterexample. The claim says `get_routes` raises exactly when
the response carries an API error or an empty route list.  On a reply that
carries an API error together with a non-empty route list, the code does
not raise: it returns the route identifiers.  So "carries an API error"
does not imply a raise, refuting the claimed equivalence. -/
theorem C7_get_routes_counterexample :
    errorOf routesDataErrorAndRoutes ≠ [] ∧
    get_routes routesDataErrorAndRoutes = Except.ok ["1"] := by
  constructor
  · decide
  · rfl

/-- Claim C7, amended. `get_routes` raises exactly when the parsed route list
is empty or absent (the API error only appears inside the raised message);
otherwise it returns the `"rt"` field of each route entry that has one. -/
theorem C7_get_routes_amended (d : RoutesData) :
    ((∃ msg, get_routes d = Except.error msg) ↔ routesOf d = []) ∧
    (routesOf d ≠ [] →
      get_routes d = Except.ok ((routesOf d).filterMap (fun rt => rt.rt))) := by
  unfold get_routes
  by_cases h : routesOf d = []
  · simp [h]
  · simp [h, List.isEmpty_iff]

/-- Witness for the amended C7 at a concrete reply with two route entries,
one of which lacks the `"rt"` field. -/
theorem C7_get_routes_amended_witness :
    routesOf { response := some { routes := some [{ rt := some "4" }, { rt := none }]
                                  error := none } } ≠ [] ∧
    get_routes { response := some { routes := some [{ rt := some "4" }, { rt := none }]
                                    error := none } } = Except.ok ["4"] := by
  refine ⟨by decide, ?_⟩
  have h := (C7_get_routes_amended
    { response := some { routes := some [{ rt := some "4" }, { rt := none }]
                         error := none } }).2 (by decide)
  simpa using h

/-- Claim C10. When the `bustime-response` carries no vehicle entries (key
absent, null, or an empty list — exactly the cases where Python's
`if not vehicles` is true), `append_vehicles_to_csv` returns 0 and leaves
the output file untouched; in particular a non-existent file (`none`) is
not created. -/
theorem C10_append_no_vehicles (d : VehiclesData)
    (h : pyFalsy (vehiclesOf d) = true)
    (file : Option (List (List String))) (pulled_at rt_chunk : String) :
    append_vehicles_to_csv d file pulled_at rt_chunk = (file, 0) := by
  unfold append_vehicles_to_csv
  simp [h]

/-- Witness for C10: an empty vehicle list on a non-existent file leaves it
non-existent, and a null vehicle key on an existing file leaves its lines
unchanged. -/
theorem C10_append_no_vehicles_witness :
    pyFalsy (vehiclesOf { response := some { vehicle := some [] } }) = true ∧
    append_vehicles_to_csv { response := some { vehicle := some [] } } none
      "2026-01-01 10:00:00 CST" "1,2,3" = (none, 0) ∧
    append_vehicles_to_csv { response := some { vehicle := none } }
      (some [["vid"], ["101"]]) "2026-01-01 10:00:00 CST" "1,2,3" =
      (some [["vid"], ["101"]], 0) :=
  ⟨by decide,
   C10_append_no_vehicles { response := some { vehicle := some [] } } (by decide)
     none "2026-01-01 10:00:00 CST" "1,2,3",
   C10_append_no_vehicles { response := some { vehicle := none } } (by decide)
     (some [["vid"], ["101"]]) "2026-01-01 10:00:00 CST" "1,2,3"⟩

theorem dfSetCol_fresh (df : DataFrame) (name value : String) (h : name ∉ df.columns) :
    dfSetCol df name value =
      { columns := df.columns ++ [name]
        rows := df.rows.map (fun r => r ++ [value]) } := by
  simp [dfSetCol, h]

/-- Claim C8. On a fetch that returns vehicles, the written CSV lines have the
upstream vehicle fields plus `pulled_at` and `rt_chunk` as columns (provided
the upstream data does not itself use those two reserved names), and the
header line is emitted exactly once per file: writing to a non-existent file
puts the header first, while appending to an existing file adds only the
data rows — the same data rows in both cases — and keeps the existing lines
unchanged. -/
theorem C8_append_csv_columns_header (d : VehiclesData) (vs : List Vehicle)
    (hvs : vehiclesOf d = some vs) (hne : vs ≠ [])
    (hp : "pulled_at" ∉ firstSeenKeys vs) (hr : "rt_chunk" ∉ firstSeenKeys vs)
    (pulled_at rt_chunk : String) :
    ∃ rows : List (List String),
      rows.length = vs.length ∧
      append_vehicles_to_csv d none pulled_at rt_chunk =
        (some ((firstSeenKeys vs ++ ["pulled_at", "rt_chunk"]) :: rows), vs.length) ∧
      ∀ ls, append_vehicles_to_csv d (some ls) pulled_at rt_chunk =
        (some (ls ++ rows), vs.length) := by
  have hfalsy : pyFalsy (vehiclesOf d) = false := by
    rw [hvs]
    simpa [pyFalsy, List.isEmpty_iff] using hne
  have hp1 : "pulled_at" ∉ (pdDataFrame vs).columns := hp
  have e1 : dfSetCol (pdDataFrame vs) "pulled_at" pulled_at =
      { columns := (pdDataFrame vs).columns ++ ["pulled_at"]
        rows := (pdDataFrame vs).rows.map (fun r => r ++ [pulled_at]) } :=
    dfSetCol_fresh _ _ _ hp1
  have hr1 : "rt_chunk" ∉ (pdDataFrame vs).columns ++ ["pulled_at"] := by
    intro hmem
    rcases List.mem_append.mp hmem with h1 | h1
    · exact hr h1
    · simp at h1
  have e2 : dfSetCol (dfSetCol (pdDataFrame vs) "pulled_at" pulled_at) "rt_chunk" rt_chunk =
      { columns := ((pdDataFrame vs).columns ++ ["pulled_at"]) ++ ["rt_chunk"]
        rows := ((pdDataFrame vs).rows.map (fun r => r ++ [pulled_at])).map
          (fun r => r ++ [rt_chunk]) } := by
    rw [e1]
    exact dfSetCol_fresh _ _ _ hr1
  have hfalsy2 : pyFalsy (some vs) = false := by rw [← hvs]; exact hfalsy
  refine ⟨((pdDataFrame vs).rows.map (fun r => r ++ [pulled_at])).map
    (fun r => r ++ [rt_chunk]), ?_, ?_, ?_⟩
  · simp [pdDataFrame]
  · simp only [append_vehicles_to_csv, hvs, hfalsy2, Bool.false_eq_true, if_false,
      Option.getD_some, e2, to_csv_append]
    simp [pdDataFrame]
  · intro ls
    simp only [append_vehicles_to_csv, hvs, hfalsy2, Bool.false_eq_true, if_false,
      Option.getD_some, e2, to_csv_append]
    simp [pdDataFrame]

/-- Concrete `getvehicles` reply with two vehicles, used as the C8 witness. -/
def twoVehicles : List Vehicle :=
  [[("vid", "4001"), ("lat", "41.9")], [("vid", "4002"), ("lat", "41.8")]]

/-- The reply wrapping `twoVehicles`. -/
def twoVehiclesData : VehiclesData :=
  { response := some { vehicle := some twoVehicles } }

/-- Witness for C8 at a concrete two-vehicle reply: the fresh file gets the
header `vid, lat, pulled_at, rt_chunk` followed by two data rows. -/
theorem C8_append_csv_columns_header_witness :
    vehiclesOf twoVehiclesData = some twoVehicles ∧
    ∃ rows : List (List String),
      rows.length = 2 ∧
      append_vehicles_to_csv twoVehiclesData none "2026-01-01 10:00:00 CST" "1,2" =
        (some (["vid", "lat", "pulled_at", "rt_chunk"] :: rows), 2) := by
  refine ⟨rfl, ?_⟩
  obtain ⟨rows, hlen, hnone, _⟩ := C8_append_csv_columns_header
    twoVehiclesData twoVehicles rfl (by decide) (by decide) (by decide)
    "2026-01-01 10:00:00 CST" "1,2"
  refine ⟨rows, by simpa [twoVehicles] using hlen, ?_⟩
  have hcols : firstSeenKeys twoVehicles ++ ["pulled_at", "rt_chunk"] =
      ["vid", "lat", "pulled_at", "rt_chunk"] := by decide
  rw [hcols] at hnone
  simpa [twoVehicles] using hnone

/-! Section: `main` argument validation (chunked script).

Python source, the first statements of `main`:
```
if chunk_hours <= 0:
    raise ValueError("chunk_hours must be > 0 (e.g., 6).")
if runtime_seconds <= 0:
    raise ValueError("runtime_seconds must be > 0.")
os.makedirs(out_dir, exist_ok=True)
session = requests.Session()
routes = get_routes(session, api_key)
```
The prelude is modelled as an effect trace: a raised `ValueError` is an
`Except.error` carrying no effects, so validation provably precedes the
directory creation and the first network request. `chunk_hours` is a Python
float, modelled as `ℚ`; `runtime_seconds` an `int`, modelled as `ℤ`. -/

/-- Side effects of `main`'s prelude, in program order. -/
inductive SideEffect where
  | makedirs (dir : String)
  | httpGetRoutes
deriving DecidableEq

/-- The validation-and-startup prefix of `main` in the chunked script. -/
def mainPrelude (chunk_hours : ℚ) (runtime_seconds : ℤ) (out_dir : String) :
    Except String (List SideEffect) :=
  if chunk_hours ≤ 0 then Except.error "chunk_hours must be > 0 (e.g., 6)."
  else if runtime_seconds ≤ 0 then Except.error "runtime_seconds must be > 0."
  else Except.ok [SideEffect.makedirs out_dir, SideEffect.httpGetRoutes]

/-- Claim C9. The chunked `main` raises `ValueError` whenever
`chunk_hours ≤ 0` or `runtime_seconds ≤ 0`, and it does so before any side
effect — the error trace carries no directory creation and no network
request; for positive values both checks pass and the effects proceed in
program order. -/
theorem C9_main_validation (chunk_hours : ℚ) (runtime_seconds : ℤ) (out_dir : String) :
    (chunk_hours ≤ 0 ∨ runtime_seconds ≤ 0 →
      ∃ msg, mainPrelude chunk_hours runtime_seconds out_dir = Except.error msg) ∧
    (0 < chunk_hours → 0 < runtime_seconds →
      mainPrelude chunk_hours runtime_seconds out_dir =
        Except.ok [SideEffect.makedirs out_dir, SideEffect.httpGetRoutes]) := by
  constructor
  · intro h
    unfold mainPrelude
    by_cases hc : chunk_hours ≤ 0
    · exact ⟨"chunk_hours must be > 0 (e.g., 6).", by simp [hc]⟩
    · rcases h with h | h
      · exact absurd h hc
      · exact ⟨"runtime_seconds must be > 0.", by simp [hc, h]⟩
  · intro h1 h2
    unfold mainPrelude
    simp [not_le.mpr h1, not_le.mpr h2]

/-- Witness for C9: `chunk_hours = -1` raises with no side effects, and the
defaults `chunk_hours = 6`, `runtime_seconds = 3600` pass validation. -/
theorem C9_main_validation_witness :
    (∃ msg, mainPrelude (-1) 3600 "data" = Except.error msg) ∧
    mainPrelude 6 3600 "data" =
      Except.ok [SideEffect.makedirs "data", SideEffect.httpGetRoutes] :=
  ⟨(C9_main_validation (-1) 3600 "data").1 (Or.inl (by decide)),
   (C9_main_validation 6 3600 "data").2 (by decide) (by decide)⟩

/-! Section: datetimes, `strftime` and the S3 keys.

The chunked script names uploads with
```
def _s3_key_for_chunk(chunk_start_dt, chunk_hours):
    chunk_end_dt = chunk_start_dt + timedelta(hours=chunk_hours)
    start_stamp = chunk_start_dt.strftime("%Y-%m-%d_%H-%M-%S")
    end_stamp = chunk_end_dt.strftime("%Y-%m-%d_%H-%M-%S")
    filename = f"bus_data_..._chicago.csv"
    return os.path.join("data_collection", filename)
```
while the unchunked script's `__main__` uploads under
`s3_key = os.path.basename(outfile)` with
`outfile = os.path.join(out_dir, f"bus_data_..._chicago.csv")`.

`PyDateTime` models a timezone-aware `datetime` at second granularity
(the scripts only ever format whole seconds).  `datetime + timedelta` is
wall-clock (calendar-field) arithmetic in Python, so it is modelled by
proleptic-Gregorian conversion to a second count and back; a fractional
second left by `timedelta(hours=h)` lives in the microsecond field, which
`%S` never shows, whence the floor. -/

structure PyDateTime where
  year : Nat
  month : Nat
  day : Nat
  hour : Nat
  minute : Nat
  second : Nat
deriving DecidableEq

/-- Gregorian leap-year rule. -/
def isLeap (y : Nat) : Bool :=
  (y % 4 == 0 && y % 100 != 0) || y % 400 == 0

def daysInMonth (y m : Nat) : Nat :=
  if m = 2 then (if isLeap y then 29 else 28)
  else if m = 4 ∨ m = 6 ∨ m = 9 ∨ m = 11 then 30
  else 31

def daysBeforeMonth (y m : Nat) : Nat :=
  ((List.range (m - 1)).map (fun i => daysInMonth y (i + 1))).sum

/-- Python's `date.toordinal`: day 1 is 0001-01-01, proleptic Gregorian. -/
def toOrdinal (y m d : Nat) : Nat :=
  (y - 1) * 365 + (y - 1) / 4 - (y - 1) / 100 + (y - 1) / 400 + daysBeforeMonth y m + d

/-- Inverse of `toOrdinal` minus one: year, month and day from a count of
days since 0001-01-01 (computed through the 400-year Gregorian cycle with
a March-based year). -/
def fromDays (n : Nat) : Nat × Nat × Nat :=
  let z := n + 306
  let era := z / 146097
  let doe := z % 146097
  let yoe := (doe - doe / 1460 + doe / 36524 - doe / 146096) / 365
  let doy := doe - (365 * yoe + yoe / 4 - yoe / 100)
  let mp := (5 * doy + 2) / 153
  let d := doy - (153 * mp + 2) / 5 + 1
  let m := if mp < 10 then mp + 3 else mp - 9
  let y := yoe + era * 400
  (if m ≤ 2 then y + 1 else y, m, d)

/-- Seconds since 0001-01-01 00:00:00. -/
def dtToSeconds (dt : PyDateTime) : Nat :=
  (toOrdinal dt.year dt.month dt.day - 1) * 86400 +
    dt.hour * 3600 + dt.minute * 60 + dt.second

def secondsToDt (s : Nat) : PyDateTime :=
  let ymd := fromDays (s / 86400)
  let rem := s % 86400
  { year := ymd.1, month := ymd.2.1, day := ymd.2.2
    hour := rem / 3600, minute := rem % 3600 / 60, second := rem % 60 }

/-- Embeds `dt + timedelta(hours=h)`: wall-clock calendar arithmetic; the flooring
drops a sub-second remainder into the (never formatted) microsecond field. -/
def addTimedeltaHours (dt : PyDateTime) (h : ℚ) : PyDateTime :=
  secondsToDt (((dtToSeconds dt : ℤ) + ⌊h * 3600⌋).toNat)

/-- Two-digit zero padding, as in `strftime`'s `%m %d %H %M %S`. -/
def pad2 (n : Nat) : String :=
  if n < 10 then "0" ++ toString n else toString n

/-- Four-digit zero padding, as in `strftime`'s `%Y`. -/
def pad4 (n : Nat) : String :=
  if n < 10 then "000" ++ toString n
  else if n < 100 then "00" ++ toString n
  else if n < 1000 then "0" ++ toString n
  else toString n

/-- Embeds `dt.strftime("%Y-%m-%d_%H-%M-%S")`. -/
def strftimeStamp (dt : PyDateTime) : String :=
  pad4 dt.year ++ "-" ++ pad2 dt.month ++ "-" ++ pad2 dt.day ++ "_" ++
    pad2 dt.hour ++ "-" ++ pad2 dt.minute ++ "-" ++ pad2 dt.second

/-- Embeds `_s3_key_for_chunk` of the chunked script. -/
def s3_key_for_chunk (chunk_start_dt : PyDateTime) (chunk_hours : ℚ) : String :=
  let chunk_end_dt := addTimedeltaHours chunk_start_dt chunk_hours
  let start_stamp := strftimeStamp chunk_start_dt
  let end_stamp := strftimeStamp chunk_end_dt
  let filename := "bus_data_" ++ start_stamp ++ "_to_" ++ end_stamp ++ "_chicago.csv"
  "data_collection/" ++ filename

/-- Embeds `os.path.join(dir, name)` for a non-empty `dir` with no trailing slash,
the only shape the scripts use. -/
def osPathJoin (dir name : String) : String := dir ++ "/" ++ name

/-- Embeds `os.path.basename`: the part after the last slash. -/
def osPathBasename (p : String) : String :=
  String.mk ((p.data.reverse.takeWhile (fun c => c ≠ '/')).reverse)

/-- The unchunked script's local output file name. -/
def nochunksOutfile (out_dir start_stamp : String) : String :=
  osPathJoin out_dir ("bus_data_" ++ start_stamp ++ "_chicago.csv")

/-- The unchunked script's upload key: `os.path.basename(outfile)`. -/
def nochunksS3Key (out_dir start_stamp : String) : String :=
  osPathBasename (nochunksOutfile out_dir start_stamp)

/-- The remote-key format as the spec words it: key =
`data_collection/bus_data_<window_start>_to_<window_end>_chicago.csv`, both
stamps in `%Y-%m-%d_%H-%M-%S` format.  Stated independently of the source's
`_s3_key_for_chunk` so the two can be compared. -/
def specRemoteKey (window_start window_end : PyDateTime) : String :=
  "data_collection/bus_data_" ++ strftimeStamp window_start ++ "_to_" ++
    strftimeStamp window_end ++ "_chicago.csv"

/-- Claim C6, counterexample. The claim says every upload uses the key
`data_collection/bus_data_<ws>_to_<we>_chicago.csv`.  The unchunked
script's upload key is `os.path.basename(outfile)` =
`bus_data_<start>_chicago.csv`: at a concrete start stamp it starts with
`b`, while every key of the claimed shape starts with `d`, so that upload
contradicts the claim. -/
theorem C6_remote_key_counterexample :
    nochunksS3Key "data" "2026-01-01_00-00-00" =
      "bus_data_2026-01-01_00-00-00_chicago.csv" ∧
    ¬ ∃ s e, nochunksS3Key "data" "2026-01-01_00-00-00" =
        "data_collection/bus_data_" ++ s ++ "_to_" ++ e ++ "_chicago.csv" := by
  constructor
  · decide
  · rintro ⟨s, e, he⟩
    have h1 : (nochunksS3Key "data" "2026-01-01_00-00-00").data.head? = some 'b' := by
      decide
    have hd : ("data_collection/bus_data_" : String).data =
        'd' :: ("ata_collection/bus_data_" : String).data := by decide
    rw [he] at h1
    rw [String.data_append, String.data_append, String.data_append,
        String.data_append, hd] at h1
    simp at h1

/-- Claim C6, amended. In the chunked script every upload key is
`data_collection/bus_data_<ws>_to_<we>_chicago.csv` with
`we = ws + timedelta(hours=chunk_hours)` and both stamps in
`%Y-%m-%d_%H-%M-%S` format (the shutdown upload included, since it reuses
`_s3_key_for_chunk`); the unchunked script instead uploads under the
top-level key `bus_data_<run_start>_chicago.csv`.  The concrete conjuncts
evaluate the chunked key across a month boundary, checking the calendar
arithmetic and the stamp format. -/
theorem C6_remote_key_amended (dt : PyDateTime) (chunk_hours : ℚ)
    (out_dir start_stamp : String) :
    s3_key_for_chunk dt chunk_hours =
      specRemoteKey dt (addTimedeltaHours dt chunk_hours) ∧
    nochunksS3Key out_dir start_stamp =
      osPathBasename (osPathJoin out_dir ("bus_data_" ++ start_stamp ++ "_chicago.csv")) ∧
    addTimedeltaHours ⟨2026, 1, 31, 23, 0, 0⟩ 6 = ⟨2026, 2, 1, 5, 0, 0⟩ ∧
    s3_key_for_chunk ⟨2026, 1, 31, 23, 0, 0⟩ 6 =
      "data_collection/bus_data_2026-01-31_23-00-00_to_2026-02-01_05-00-00_chicago.csv" := by
  have hf : ⌊(6 : ℚ) * 3600⌋ = 21600 := by
    have h6 : ((6 : ℚ) * 3600) = ((21600 : ℤ) : ℚ) := by norm_num
    rw [h6, Int.floor_intCast]
  refine ⟨?_, rfl, ?_, ?_⟩
  · show "data_collection/" ++
        ("bus_data_" ++ strftimeStamp dt ++ "_to_" ++
          strftimeStamp (addTimedeltaHours dt chunk_hours) ++ "_chicago.csv") =
      specRemoteKey dt (addTimedeltaHours dt chunk_hours)
    have h : ("data_collection/" : String) ++ "bus_data_" =
        "data_collection/bus_data_" := by decide
    simp only [specRemoteKey, ← String.append_assoc, h]
  · simp only [addTimedeltaHours, hf]
    decide
  · simp only [s3_key_for_chunk, addTimedeltaHours, hf]
    decide

/-! Section: the chunk-rollover/upload state machine (chunked script).

`main`'s loop is driven here by an explicit environment: each step carries
the reading `time.time()` would return at that point and the outcome an S3
upload attempted at that point would have.  `Step.check` is a bare
`rollover_if_needed()` call (top of a sweep); `Step.fetch` is one inner
iteration: `rollover_if_needed()` followed by the fetch/append `try` block.
Which steps occur is decided by the while/for conditions on the clock, so
an arbitrary step list covers every schedule the loop can produce.

The local file is the list of appended batches, each tagged with the
`chunk_start_ts` of the window that was current when it was appended.  The
script deletes the file after a successful upload and `to_csv` recreates it
at the next append, so an existing-but-empty file never occurs and
`has_data` (`os.path.exists and os.path.getsize > 0`) is plain
non-emptiness.  `chunk_start_dt` is carried as a wall-clock second count;
it advances in lockstep with `chunk_start_ts` (exactly so whenever
`chunk_hours * 3600` is a whole number of seconds, the granularity of this
model); an upload event records it as the stand-in for the S3 key
`_s3_key_for_chunk(chunk_start_dt, chunk_hours)`. -/

/-- One appended batch: the window tag (the `chunk_start_ts` current at
append time) and the number of rows `append_vehicles_to_csv` wrote. -/
structure Batch where
  window : Nat
  rows : Nat
deriving DecidableEq

/-- The loop state of `main` in the chunked script. -/
structure MState where
  chunk_start_ts : Nat
  chunk_start_dt : Nat
  next_rollover_ts : Nat
  file : List Batch
  total_rows : Nat
  call_num : Nat
deriving DecidableEq

/-- Run configuration: `chunk_seconds = int(chunk_hours * 3600)` and the
`--no_s3_upload` switch.  In `main`, `s3_client is not None` exactly when
`no_s3_upload` is false, so one flag stands for both tests. -/
structure MConfig where
  chunk_seconds : Nat
  no_s3_upload : Bool
deriving DecidableEq

/-- Observable events of a run. -/
inductive Ev where
  | uploadAttempt (dt : Nat) (batches : List Batch) (success : Bool)
  | deleteLocal
  | rolled (newStart : Nat)
  | appended (b : Batch)
  | fetchError
deriving DecidableEq

/-- Embeds `os.path.exists(outfile) and os.path.getsize(outfile) > 0`. -/
def has_data (file : List Batch) : Bool := !file.isEmpty

/-- The state set up by `main` before the loop. -/
def initMState (cfg : MConfig) (start_ts dt0 : Nat) : MState :=
  { chunk_start_ts := start_ts
    chunk_start_dt := dt0
    next_rollover_ts := start_ts + cfg.chunk_seconds
    file := []
    total_rows := 0
    call_num := 0 }

/-- Embeds `rollover_if_needed()`: before the boundary do nothing; at or past the
boundary upload-if-there-is-data, delete the file and advance on success,
return without advancing on failure, and advance without uploading when
there is nothing to upload (or uploads are disabled). -/
def rollover_if_needed (cfg : MConfig) (s : MState) (now : Nat) (uploadOk : Bool) :
    MState × List Ev :=
  if now < s.next_rollover_ts then (s, [])
  else if !cfg.no_s3_upload && has_data s.file then
    if uploadOk then
      ({ s with
          file := []
          chunk_start_ts := s.next_rollover_ts
          chunk_start_dt := s.chunk_start_dt + cfg.chunk_seconds
          next_rollover_ts := s.next_rollover_ts + cfg.chunk_seconds },
        [Ev.uploadAttempt s.chunk_start_dt s.file true, Ev.deleteLocal,
          Ev.rolled s.next_rollover_ts])
    else
      (s, [Ev.uploadAttempt s.chunk_start_dt s.file false])
  else
    ({ s with
        chunk_start_ts := s.next_rollover_ts
        chunk_start_dt := s.chunk_start_dt + cfg.chunk_seconds
        next_rollover_ts := s.next_rollover_ts + cfg.chunk_seconds },
      [Ev.rolled s.next_rollover_ts])

/-- The number of rows `append_vehicles_to_csv` writes for a reply. -/
def numVehicleRows (d : VehiclesData) : Nat :=
  if pyFalsy (vehiclesOf d) then 0 else ((vehiclesOf d).getD []).length

/-- The fetch/append `try` block of one inner loop iteration: a raise is
logged (`call_num` still advances) and contributes nothing; a reply with
vehicles appends one batch tagged with the current window. -/
def fetchStep (s : MState) (res : Except Unit VehiclesData) : MState × List Ev :=
  match res with
  | Except.error _ => ({ s with call_num := s.call_num + 1 }, [Ev.fetchError])
  | Except.ok d =>
      let n := numVehicleRows d
      if pyFalsy (vehiclesOf d) then
        ({ s with call_num := s.call_num + 1, total_rows := s.total_rows + n }, [])
      else
        ({ s with
            call_num := s.call_num + 1
            total_rows := s.total_rows + n
            file := s.file ++ [⟨s.chunk_start_ts, n⟩] },
          [Ev.appended ⟨s.chunk_start_ts, n⟩])

/-- One scheduled point of the loop. -/
inductive Step where
  | check (now : Nat) (uploadOk : Bool)
  | fetch (now : Nat) (uploadOk : Bool) (res : Except Unit VehiclesData)

def runStep (cfg : MConfig) (s : MState) : Step → MState × List Ev
  | Step.check now uploadOk => rollover_if_needed cfg s now uploadOk
  | Step.fetch now uploadOk res =>
      ((fetchStep (rollover_if_needed cfg s now uploadOk).1 res).1,
        (rollover_if_needed cfg s now uploadOk).2 ++
          (fetchStep (rollover_if_needed cfg s now uploadOk).1 res).2)

def runSteps (cfg : MConfig) (s : MState) : List Step → MState × List Ev
  | [] => (s, [])
  | st :: rest =>
      ((runSteps cfg (runStep cfg s st).1 rest).1,
        (runStep cfg s st).2 ++ (runSteps cfg (runStep cfg s st).1 rest).2)

/-- The block after the while loop: one final upload of whatever remains,
attempted whenever uploads are enabled and the file has data, whatever the
window state; the file is deleted only on success. -/
def shutdownStep (cfg : MConfig) (s : MState) (uploadOk : Bool) : MState × List Ev :=
  if !cfg.no_s3_upload then
    if has_data s.file then
      if uploadOk then
        ({ s with file := [] },
          [Ev.uploadAttempt s.chunk_start_dt s.file true, Ev.deleteLocal])
      else
        (s, [Ev.uploadAttempt s.chunk_start_dt s.file false])
    else (s, [])
  else (s, [])

/-- A whole run of `main` after startup: the loop, then the final upload. -/
def runMain (cfg : MConfig) (start_ts dt0 : Nat) (steps : List Step)
    (finalUploadOk : Bool) : MState × List Ev :=
  ((shutdownStep cfg (runSteps cfg (initMState cfg start_ts dt0) steps).1
      finalUploadOk).1,
    (runSteps cfg (initMState cfg start_ts dt0) steps).2 ++
      (shutdownStep cfg (runSteps cfg (initMState cfg start_ts dt0) steps).1
        finalUploadOk).2)

/-- Batches recorded as appended in a trace, in order. -/
def appendedBatches (tr : List Ev) : List Batch :=
  tr.filterMap (fun e => match e with
    | Ev.appended b => some b
    | _ => none)

/-- Batches covered by successful upload attempts, in order. -/
def uploadedBatches (tr : List Ev) : List Batch :=
  (tr.map (fun e => match e with
    | Ev.uploadAttempt _ bs true => bs
    | _ => [])).flatten

/-- Batches covered by any upload attempt, successful or not. -/
def attemptedBatches (tr : List Ev) : List Batch :=
  (tr.map (fun e => match e with
    | Ev.uploadAttempt _ bs _ => bs
    | _ => [])).flatten

/-- How many upload attempts in the trace include data of window `w`. -/
def attemptsTouching (w : Nat) (tr : List Ev) : Nat :=
  tr.countP (fun e => match e with
    | Ev.uploadAttempt _ bs _ => bs.any (fun b => b.window == w)
    | _ => false)

/-- Upload attempts in a trace. -/
def countAttempts (tr : List Ev) : Nat :=
  tr.countP (fun e => match e with
    | Ev.uploadAttempt _ _ _ => true
    | _ => false)

/-- Rows of the successful fetches of a schedule. -/
def sumRowsOk (steps : List Step) : Nat :=
  (steps.map (fun st => match st with
    | Step.fetch _ _ (Except.ok d) => numVehicleRows d
    | _ => 0)).sum

/-- Rows of the successful fetches of the unchunked script's run. -/
def sumRowsOkE (fetches : List (Except Unit VehiclesData)) : Nat :=
  (fetches.map (fun res => match res with
    | Except.ok d => numVehicleRows d
    | Except.error _ => 0)).sum

/-- The unchunked script's polling loop, counters only: `(call_num,
total_rows)` folded over the run's fetch outcomes; a raised fetch is logged
and adds nothing, a successful one adds its appended row count. -/
def nochunksLoop (fetches : List (Except Unit VehiclesData)) : Nat × Nat :=
  fetches.foldl (fun acc res =>
    match res with
    | Except.error _ => (acc.1 + 1, acc.2)
    | Except.ok d => (acc.1 + 1, acc.2 + numVehicleRows d)) (0, 0)

theorem rollover_total_rows (cfg : MConfig) (s : MState) (now : Nat) (ok : Bool) :
    (rollover_if_needed cfg s now ok).1.total_rows = s.total_rows := by
  unfold rollover_if_needed
  split
  · rfl
  · split
    · split
      · rfl
      · rfl
    · rfl

/-- Rows contributed by one step of the schedule. -/
def stepRows : Step → Nat
  | Step.fetch _ _ (Except.ok d) => numVehicleRows d
  | _ => 0

theorem fetchStep_total_rows (s : MState) (res : Except Unit VehiclesData) :
    (fetchStep s res).1.total_rows =
      s.total_rows + (match res with
        | Except.ok d => numVehicleRows d
        | Except.error _ => 0) := by
  cases res with
  | error e => simp [fetchStep]
  | ok d =>
    unfold fetchStep
    by_cases h : pyFalsy (vehiclesOf d) <;> simp [h]

theorem runStep_total_rows (cfg : MConfig) (s : MState) (st : Step) :
    (runStep cfg s st).1.total_rows = s.total_rows + stepRows st := by
  cases st with
  | check now ok => simp [runStep, stepRows, rollover_total_rows]
  | fetch now ok res =>
    cases res with
    | error e =>
      simp [runStep, stepRows, fetchStep_total_rows, rollover_total_rows]
    | ok d =>
      simp [runStep, stepRows, fetchStep_total_rows, rollover_total_rows]

theorem runSteps_total_rows (cfg : MConfig) (steps : List Step) :
    ∀ s : MState, (runSteps cfg s steps).1.total_rows =
      s.total_rows + sumRowsOk steps := by
  induction steps with
  | nil => intro s; simp [runSteps, sumRowsOk]
  | cons st rest ih =>
    intro s
    show (runSteps cfg (runStep cfg s st).1 rest).1.total_rows = _
    rw [ih, runStep_total_rows]
    have : sumRowsOk (st :: rest) = stepRows st + sumRowsOk rest := by
      cases st with
      | check now ok => simp [sumRowsOk, stepRows]
      | fetch now ok res =>
        cases res with
        | error e => simp [sumRowsOk, stepRows]
        | ok d => simp [sumRowsOk, stepRows]
    rw [this]
    omega

theorem shutdown_total_rows (cfg : MConfig) (s : MState) (ok : Bool) :
    (shutdownStep cfg s ok).1.total_rows = s.total_rows := by
  unfold shutdownStep
  split
  · split
    · split
      · rfl
      · rfl
    · rfl
  · rfl

theorem dfSetCol_rows_length (df : DataFrame) (name value : String) :
    (dfSetCol df name value).rows.length = df.rows.length := by
  unfold dfSetCol
  split <;> simp

/-- The function `append_vehicles_to_csv` returns the machine's per-fetch row
count: 0 on a falsy vehicle list, the vehicle count otherwise. -/
theorem append_vehicles_count (d : VehiclesData) (file : Option (List (List String)))
    (pulled_at rt_chunk : String) :
    (append_vehicles_to_csv d file pulled_at rt_chunk).2 = numVehicleRows d := by
  unfold append_vehicles_to_csv numVehicleRows
  by_cases h : pyFalsy (vehiclesOf d)
  · simp [h]
  · simp [h, dfSetCol_rows_length, pdDataFrame]

theorem nochunksLoop_total (fetches : List (Except Unit VehiclesData)) :
    ∀ c t : Nat,
      (fetches.foldl (fun acc res =>
        match res with
        | Except.error _ => (acc.1 + 1, acc.2)
        | Except.ok d => (acc.1 + 1, acc.2 + numVehicleRows d)) (c, t)).2 =
      t + sumRowsOkE fetches := by
  induction fetches with
  | nil => intro c t; simp [sumRowsOkE]
  | cons res rest ih =>
    intro c t
    cases res with
    | error e => simp [List.foldl_cons, ih, sumRowsOkE]
    | ok d =>
      simp only [List.foldl_cons]
      rw [ih]
      simp [sumRowsOkE]
      omega

/-- Claim C3. In both scripts the final `total_rows` equals the sum over the
successful fetches only of the rows appended for that fetch: in the chunked
machine over any schedule and any upload outcomes, and in the unchunked
loop over any fetch-outcome list; a fetch that raises contributes nothing
and a successful fetch with a falsy vehicle list contributes zero.  The
last conjunct ties the machine's per-fetch count to
`append_vehicles_to_csv`'s return value. -/
theorem C3_total_rows_conservation (cfg : MConfig) (start_ts dt0 : Nat)
    (steps : List Step) (finalOk : Bool)
    (fetches : List (Except Unit VehiclesData)) :
    (runMain cfg start_ts dt0 steps finalOk).1.total_rows = sumRowsOk steps ∧
    (nochunksLoop fetches).2 = sumRowsOkE fetches ∧
    (∀ d file pulled_at rt_chunk,
      (append_vehicles_to_csv d file pulled_at rt_chunk).2 = numVehicleRows d) := by
  refine ⟨?_, ?_, fun d file p r => append_vehicles_count d file p r⟩
  · show (shutdownStep cfg (runSteps cfg (initMState cfg start_ts dt0) steps).1
      finalOk).1.total_rows = sumRowsOk steps
    rw [shutdown_total_rows, runSteps_total_rows]
    simp [initMState]
  · have h := nochunksLoop_total fetches 0 0
    simpa [nochunksLoop] using h

/-- Claim C2. In the delete-after-upload script, when the upload at a chunk
boundary fails, `rollover_if_needed` returns the state exactly unchanged —
the local file is not deleted and `chunk_start_ts`, `chunk_start_dt` and
`next_rollover_ts` keep their values — recording only the failed attempt;
and from that same preserved state any later boundary check whose upload
succeeds uploads exactly the preserved file.  So the accumulated data stays
in the same local file until a later successful upload. -/
theorem C2_upload_failure_preserves (cfg : MConfig) (s : MState) (now now2 : Nat)
    (hs3 : cfg.no_s3_upload = false) (hdata : has_data s.file = true)
    (hnow : s.next_rollover_ts ≤ now) (hnow2 : s.next_rollover_ts ≤ now2) :
    rollover_if_needed cfg s now false =
      (s, [Ev.uploadAttempt s.chunk_start_dt s.file false]) ∧
    rollover_if_needed cfg s now2 true =
      ({ s with
          file := []
          chunk_start_ts := s.next_rollover_ts
          chunk_start_dt := s.chunk_start_dt + cfg.chunk_seconds
          next_rollover_ts := s.next_rollover_ts + cfg.chunk_seconds },
        [Ev.uploadAttempt s.chunk_start_dt s.file true, Ev.deleteLocal,
          Ev.rolled s.next_rollover_ts]) := by
  constructor
  · unfold rollover_if_needed
    simp [Nat.not_lt.mpr hnow, hs3, hdata]
  · unfold rollover_if_needed
    simp [Nat.not_lt.mpr hnow2, hs3, hdata]

/-- A concrete mid-run state: window `[0, 10)`, one two-row batch on disk. -/
def exampleState : MState :=
  { chunk_start_ts := 0
    chunk_start_dt := 1000
    next_rollover_ts := 10
    file := [{ window := 0, rows := 2 }]
    total_rows := 2
    call_num := 1 }

/-- The configuration used by the concrete runs: 10-second chunks, uploads
enabled. -/
def cfgEx : MConfig := { chunk_seconds := 10, no_s3_upload := false }

/-- Witness for C2 at `exampleState`: the failed boundary upload at `now =
10` changes nothing, and a successful one at `now = 12` ships the preserved
batch. -/
theorem C2_upload_failure_preserves_witness :
    rollover_if_needed cfgEx exampleState 10 false =
      (exampleState,
        [Ev.uploadAttempt 1000 [{ window := 0, rows := 2 }] false]) ∧
    rollover_if_needed cfgEx exampleState 12 true =
      ({ chunk_start_ts := 10
         chunk_start_dt := 1010
         next_rollover_ts := 20
         file := []
         total_rows := 2
         call_num := 1 },
        [Ev.uploadAttempt 1000 [{ window := 0, rows := 2 }] true,
          Ev.deleteLocal, Ev.rolled 10]) := by
  have h := C2_upload_failure_preserves cfgEx exampleState 10 12
    (by decide) (by decide) (by decide) (by decide)
  exact ⟨h.1, h.2⟩

/-- Claim C5. The block after the loop performs exactly one final upload
attempt of whatever remains whenever uploads are enabled and the file holds
data, and it does so for every window state — `chunk_start_ts` and
`next_rollover_ts` are arbitrary and unconstrained here, whether or not the
clock ever reached the boundary.  The unchunked script's `__main__`
likewise attempts its single upload unconditionally after the loop. -/
theorem C5_final_upload_always (cfg : MConfig) (s : MState) (uploadOk : Bool)
    (hs3 : cfg.no_s3_upload = false) (hdata : has_data s.file = true) :
    (shutdownStep cfg s uploadOk).2 =
      Ev.uploadAttempt s.chunk_start_dt s.file uploadOk ::
        (if uploadOk then [Ev.deleteLocal] else []) ∧
    countAttempts (shutdownStep cfg s uploadOk).2 = 1 := by
  have h2 : (shutdownStep cfg s uploadOk).2 =
      Ev.uploadAttempt s.chunk_start_dt s.file uploadOk ::
        (if uploadOk then [Ev.deleteLocal] else []) := by
    unfold shutdownStep
    cases uploadOk <;> simp [hs3, hdata]
  refine ⟨h2, ?_⟩
  rw [h2]
  cases uploadOk <;> simp [countAttempts, List.countP_cons, List.countP_nil]

/-- Witness for C5 at `exampleState` with a failing final upload: the
attempt still happens, exactly once. -/
theorem C5_final_upload_always_witness :
    (shutdownStep cfgEx exampleState false).2 =
      [Ev.uploadAttempt 1000 [{ window := 0, rows := 2 }] false] ∧
    countAttempts (shutdownStep cfgEx exampleState false).2 = 1 := by
  have h := C5_final_upload_always cfgEx exampleState false (by decide) (by decide)
  exact ⟨h.1, h.2⟩

/-- A single-vehicle `getvehicles` reply. -/
def oneVehicleData : VehiclesData :=
  { response := some { vehicle := some [[("vid", "9001"), ("lat", "41.7")]] } }

/-- A schedule on which every upload fails: a two-row append in window
`[0,10)`, the boundary check at `now = 10`, then one more iteration at
`now = 11` (its rollover check re-attempts the same upload) with a further
one-row append. -/
def stepsFailingUploads : List Step :=
  [Step.fetch 0 true (Except.ok twoVehiclesData),
   Step.check 10 false,
   Step.fetch 11 false (Except.ok oneVehicleData)]

/-- Claim C1, counterexample. The claim bounds the attempts for a completed
window's data by two (one at the boundary, one at shutdown).  Run the
machine on `stepsFailingUploads` with a failing shutdown upload: window 0
has completed (the clock reached 10 and 11), yet its data is included in
three upload attempts — at the boundary check, again at the very next
iteration's rollover check (the failure did not advance the window, so the
check fires again), and in the final shutdown attempt. -/
theorem C1_upload_attempts_counterexample :
    attemptsTouching 0 (runMain cfgEx 0 1000 stepsFailingUploads false).2 = 3 ∧
    ¬ attemptsTouching 0 (runMain cfgEx 0 1000 stepsFailingUploads false).2 ≤ 2 := by
  constructor
  · decide
  · decide

theorem appendedBatches_append (t1 t2 : List Ev) :
    appendedBatches (t1 ++ t2) = appendedBatches t1 ++ appendedBatches t2 := by
  simp [appendedBatches]

theorem uploadedBatches_append (t1 t2 : List Ev) :
    uploadedBatches (t1 ++ t2) = uploadedBatches t1 ++ uploadedBatches t2 := by
  simp [uploadedBatches]

theorem attemptedBatches_append (t1 t2 : List Ev) :
    attemptedBatches (t1 ++ t2) = attemptedBatches t1 ++ attemptedBatches t2 := by
  simp [attemptedBatches]

theorem mem_uploaded_mem_attempted (tr : List Ev) :
    ∀ b ∈ uploadedBatches tr, b ∈ attemptedBatches tr := by
  induction tr with
  | nil => intro b hb; simp [uploadedBatches] at hb
  | cons e rest ih =>
    intro b hb
    cases e with
    | uploadAttempt dt bs suc =>
      cases suc with
      | false =>
        have hb2 : b ∈ uploadedBatches rest := by
          simpa [uploadedBatches] using hb
        simpa [attemptedBatches] using Or.inr (ih b hb2)
      | true =>
        have hb2 : b ∈ bs ∨ b ∈ uploadedBatches rest := by
          simpa [uploadedBatches] using hb
        rcases hb2 with hb2 | hb2
        · simpa [attemptedBatches] using Or.inl hb2
        · simpa [attemptedBatches] using Or.inr (ih b hb2)
    | deleteLocal =>
      have hb2 : b ∈ uploadedBatches rest := by
        simpa [uploadedBatches] using hb
      simpa [attemptedBatches] using ih b hb2
    | rolled n =>
      have hb2 : b ∈ uploadedBatches rest := by
        simpa [uploadedBatches] using hb
      simpa [attemptedBatches] using ih b hb2
    | appended b2 =>
      have hb2 : b ∈ uploadedBatches rest := by
        simpa [uploadedBatches] using hb
      simpa [attemptedBatches] using ih b hb2
    | fetchError =>
      have hb2 : b ∈ uploadedBatches rest := by
        simpa [uploadedBatches] using hb
      simpa [attemptedBatches] using ih b hb2

/-- File/trace conservation through one rollover check: successful uploads
move the whole file into the trace, anything else leaves it in place. -/
theorem rollover_conservation (cfg : MConfig) (s : MState) (now : Nat) (ok : Bool) :
    uploadedBatches (rollover_if_needed cfg s now ok).2 ++
      (rollover_if_needed cfg s now ok).1.file =
      s.file ++ appendedBatches (rollover_if_needed cfg s now ok).2 := by
  unfold rollover_if_needed
  split
  · simp [uploadedBatches, appendedBatches]
  · split
    · split
      · simp [uploadedBatches, appendedBatches]
      · simp [uploadedBatches, appendedBatches]
    · simp [uploadedBatches, appendedBatches]

theorem fetch_conservation (s : MState) (res : Except Unit VehiclesData) :
    uploadedBatches (fetchStep s res).2 ++ (fetchStep s res).1.file =
      s.file ++ appendedBatches (fetchStep s res).2 := by
  cases res with
  | error e => simp [fetchStep, uploadedBatches, appendedBatches]
  | ok d =>
    unfold fetchStep
    by_cases h : pyFalsy (vehiclesOf d) <;>
      simp [h, uploadedBatches, appendedBatches]

theorem runStep_conservation (cfg : MConfig) (s : MState) (st : Step) :
    uploadedBatches (runStep cfg s st).2 ++ (runStep cfg s st).1.file =
      s.file ++ appendedBatches (runStep cfg s st).2 := by
  cases st with
  | check now ok => exact rollover_conservation cfg s now ok
  | fetch now ok res =>
    simp only [runStep, uploadedBatches_append, appendedBatches_append]
    rw [List.append_assoc, fetch_conservation, ← List.append_assoc,
        rollover_conservation, List.append_assoc]

theorem runSteps_conservation (cfg : MConfig) (steps : List Step) :
    ∀ s : MState,
      uploadedBatches (runSteps cfg s steps).2 ++ (runSteps cfg s steps).1.file =
        s.file ++ appendedBatches (runSteps cfg s steps).2 := by
  induction steps with
  | nil => intro s; simp [runSteps, uploadedBatches, appendedBatches]
  | cons st rest ih =>
    intro s
    simp only [runSteps, uploadedBatches_append, appendedBatches_append]
    rw [List.append_assoc, ih, ← List.append_assoc, runStep_conservation,
        List.append_assoc]

theorem shutdown_conservation (cfg : MConfig) (s : MState) (ok : Bool) :
    uploadedBatches (shutdownStep cfg s ok).2 ++ (shutdownStep cfg s ok).1.file =
      s.file ++ appendedBatches (shutdownStep cfg s ok).2 := by
  unfold shutdownStep
  split
  · split
    · split
      · simp [uploadedBatches, appendedBatches]
      · simp [uploadedBatches, appendedBatches]
    · simp [uploadedBatches, appendedBatches]
  · simp [uploadedBatches, appendedBatches]

theorem shutdown_file_empty (cfg : MConfig) (s : MState)
    (hs3 : cfg.no_s3_upload = false) : (shutdownStep cfg s true).1.file = [] := by
  unfold shutdownStep
  by_cases h : has_data s.file
  · simp [hs3, h]
  · have hfile : s.file = [] := by
      simpa [has_data, List.isEmpty_iff] using h
    simp [hs3, hfile, has_data]

theorem shutdown_file_attempted (cfg : MConfig) (s : MState) (ok : Bool)
    (hs3 : cfg.no_s3_upload = false) :
    ∀ b ∈ (shutdownStep cfg s ok).1.file,
      b ∈ attemptedBatches (shutdownStep cfg s ok).2 := by
  intro b hb
  by_cases h : has_data s.file
  · cases ok with
    | false =>
      unfold shutdownStep at hb ⊢
      simp only [hs3, Bool.not_false, if_true, h] at hb ⊢
      simpa [attemptedBatches] using hb
    | true =>
      unfold shutdownStep at hb
      simp [hs3, h] at hb
  · have hfile : s.file = [] := by
      simpa [has_data, List.isEmpty_iff] using h
    unfold shutdownStep at hb
    simp [hs3, hfile, has_data] at hb

theorem runMain_conservation (cfg : MConfig) (start_ts dt0 : Nat)
    (steps : List Step) (finalOk : Bool) :
    uploadedBatches (runMain cfg start_ts dt0 steps finalOk).2 ++
      (runMain cfg start_ts dt0 steps finalOk).1.file =
      appendedBatches (runMain cfg start_ts dt0 steps finalOk).2 := by
  simp only [runMain, uploadedBatches_append, appendedBatches_append]
  rw [List.append_assoc, shutdown_conservation, ← List.append_assoc,
      runSteps_conservation]
  simp [initMState]

/-- Claim C1, amended. With uploads enabled, every appended batch is included
in at least one upload attempt of the run (so a completed window's data is
never left unattempted); and whenever the final shutdown upload succeeds,
the successful upload attempts of the run cover, in order and exactly once
each, precisely the appended batches — in an all-successful run this is one
upload per window at its first boundary check plus the final shutdown
upload for the last partial window.  When an upload fails, however, the
window does not advance and the very next rollover check re-attempts the
same data, so the number of attempts for one window's data is unbounded
rather than capped at two. -/
theorem C1_upload_attempts_amended (cfg : MConfig) (start_ts dt0 : Nat)
    (steps : List Step) (finalOk : Bool) (hs3 : cfg.no_s3_upload = false) :
    (∀ b ∈ appendedBatches (runMain cfg start_ts dt0 steps finalOk).2,
        b ∈ attemptedBatches (runMain cfg start_ts dt0 steps finalOk).2) ∧
    (finalOk = true →
      uploadedBatches (runMain cfg start_ts dt0 steps finalOk).2 =
        appendedBatches (runMain cfg start_ts dt0 steps finalOk).2) := by
  have hcons := runMain_conservation cfg start_ts dt0 steps finalOk
  constructor
  · intro b hb
    have hmem : b ∈ uploadedBatches (runMain cfg start_ts dt0 steps finalOk).2 ++
        (runMain cfg start_ts dt0 steps finalOk).1.file := by
      rw [hcons]; exact hb
    rcases List.mem_append.mp hmem with h | h
    · exact mem_uploaded_mem_attempted _ b h
    · have h2 := shutdown_file_attempted cfg
        (runSteps cfg (initMState cfg start_ts dt0) steps).1 finalOk hs3 b h
      have hsplit : attemptedBatches (runMain cfg start_ts dt0 steps finalOk).2 =
          attemptedBatches (runSteps cfg (initMState cfg start_ts dt0) steps).2 ++
            attemptedBatches (shutdownStep cfg
              (runSteps cfg (initMState cfg start_ts dt0) steps).1 finalOk).2 := by
        simp only [runMain]
        rw [attemptedBatches_append]
      rw [hsplit]
      exact List.mem_append.mpr (Or.inr h2)
  · intro hfok
    subst hfok
    have hfe : (runMain cfg start_ts dt0 steps true).1.file = [] :=
      shutdown_file_empty cfg (runSteps cfg (initMState cfg start_ts dt0) steps).1 hs3
    rw [hfe, List.append_nil] at hcons
    exact hcons

/-- A schedule whose uploads all succeed: one batch in window `[0,10)`,
uploaded at the boundary check, one batch in window `[10,20)`, shipped by
the successful shutdown upload. -/
def stepsOkUploads : List Step :=
  [Step.fetch 0 true (Except.ok twoVehiclesData),
   Step.check 10 true,
   Step.fetch 11 true (Except.ok oneVehicleData)]

/-- Witness for the amended C1 on a concrete all-successful run: the
successful upload attempts cover exactly the appended batches. -/
theorem C1_upload_attempts_amended_witness :
    cfgEx.no_s3_upload = false ∧
    uploadedBatches (runMain cfgEx 0 1000 stepsOkUploads true).2 =
      appendedBatches (runMain cfgEx 0 1000 stepsOkUploads true).2 :=
  ⟨rfl, (C1_upload_attempts_amended cfgEx 0 1000 stepsOkUploads true rfl).2 rfl⟩

end BusTrust
